import Mathlib

/-!
# Shop4Me `/go` redirect function — verification development

Shallow embedding of `functions/index.js` (the `go` Cloud Function): URL
allowlist checking, ASIN extraction, affiliate-URL building, and the
click-audit record, together with theorems about the handler's behaviour.

Machine strings are modelled as Lean `String`/`List Char`; the JavaScript
regular expressions are embedded as explicit leftmost scanners (the regex
alternatives `dp|gp\/product|product` have pairwise distinct first letters,
so the backtracking search is equivalent to the deterministic first-match
test used here).
-/

namespace Shop4Me

/-- ASCII lower-casing of one character, as JavaScript `toLowerCase` acts on
the ASCII range (the only range reachable here: hostnames and the regex
keyword letters). -/
def charLower (c : Char) : Char :=
  if 65 ≤ c.toNat ∧ c.toNat ≤ 90 then Char.ofNat (c.toNat + 32) else c

/-- ASCII upper-casing of one character, as JavaScript `toUpperCase` acts on
the ASCII range (applied only to regex captures, which are ASCII
alphanumeric). -/
def upChar (c : Char) : Char :=
  if 97 ≤ c.toNat ∧ c.toNat ≤ 122 then Char.ofNat (c.toNat - 32) else c

/-- Character class `[A-Z0-9]` under the `i` flag: ASCII letters and digits. -/
def isIdChar (c : Char) : Bool :=
  (48 ≤ c.toNat && c.toNat ≤ 57) ||
  (65 ≤ c.toNat && c.toNat ≤ 90) ||
  (97 ≤ c.toNat && c.toNat ≤ 122)

/-- JavaScript `String.prototype.trim` whitespace (WhiteSpace ∪
LineTerminator code points). -/
def isJsSpace (c : Char) : Bool :=
  let n := c.toNat
  (9 ≤ n && n ≤ 13) || n == 32 || n == 160 || n == 5760 ||
  (8192 ≤ n && n ≤ 8202) || n == 8232 || n == 8233 || n == 8239 ||
  n == 8287 || n == 12288 || n == 65279

/-- JavaScript `s.trim()` on the character list: drop whitespace from both ends. -/
def jsTrimList (l : List Char) : List Char :=
  ((l.dropWhile isJsSpace).reverse.dropWhile isJsSpace).reverse

/-- JavaScript `s.trim()`. -/
def jsTrim (s : String) : String :=
  String.mk (jsTrimList s.toList)

/-- JavaScript `a || b` on strings: `b` when `a` is empty. -/
def strOr (a b : String) : String :=
  if a = "" then b else a

/-- JavaScript `a || null` on a string. -/
def strOrNull (a : String) : Option String :=
  if a = "" then none else some a

/-- The tail `(?:[/?]|$)` of both ASIN regexes: the next character, if any,
is `/` or `?`. -/
def boundaryOk : List Char → Bool
  | [] => true
  | c :: _ => c == '/' || c == '?'

/-- Try to match `([A-Z0-9]{10})(?:[/?]|$)` (case-insensitive) at the head
of `l`; on success return the ten captured characters. -/
def grab10 (l : List Char) : Option (List Char) :=
  if (l.take 10).length = 10 && (l.take 10).all isIdChar && boundaryOk (l.drop 10) then
    some (l.take 10)
  else
    none

/-- After the leading `/`, match one alternative of `(?:dp|gp\/product|product)\/`
(case-insensitive) and return the remainder.  The alternatives begin with
the distinct letters `d`, `g`, `p`, so first-match is the regex semantics. -/
def stripKeyword (l : List Char) : Option (List Char) :=
  if (l.take 3).map charLower = "dp/".toList then some (l.drop 3)
  else if (l.take 11).map charLower = "gp/product/".toList then some (l.drop 11)
  else if (l.take 8).map charLower = "product/".toList then some (l.drop 8)
  else none

/-- Try the path-shaped pattern `\/(?:dp|gp\/product|product)\/([A-Z0-9]{10})(?:[/?]|$)`
at the head of `l`. -/
def match1At : List Char → Option (List Char)
  | [] => none
  | c :: rest => if c = '/' then (stripKeyword rest).bind grab10 else none

/-- Leftmost match of the path-shaped first-tier regex. -/
def scan1 : List Char → Option (List Char)
  | [] => none
  | c :: rest =>
    match match1At (c :: rest) with
    | some id => some id
    | none => scan1 rest

/-- Leftmost match of the fallback regex `([A-Z0-9]{10})(?:[/?]|$)`. -/
def scan2 : List Char → Option (List Char)
  | [] => none
  | c :: rest =>
    match grab10 (c :: rest) with
    | some id => some id
    | none => scan2 rest

/-- Function `extractAsin` from `functions/index.js`: trim, try the path-shaped
pattern, then the bare-token fallback, upper-casing the capture; empty
string when nothing matches. -/
def extractAsin (s : String) : String :=
  if s = "" then ""
  else
    let str := jsTrim s
    match scan1 str.toList with
    | some id => String.mk (id.map upChar)
    | none =>
      match scan2 str.toList with
      | some id => String.mk (id.map upChar)
      | none => ""

-- ---- Config (constants from the source) ----

def ENABLE_LOGGING : Bool := true

def DEFAULT_AFF_TAG : String := "shop4me0e-21"

def AMAZON_HOST : String := "https://www.amazon.in"

/-- Constant `ALLOWLIST_HOSTS`: the fixed redirect-target allowlist (a JS `Set`,
membership by exact string equality). -/
def ALLOWLIST_HOSTS : List String :=
  ["www.amazon.in", "amazon.in", "amzn.to", "m.amazon.in"]

-- ---- URL model ----

/-- A parsed URL, as produced by the platform's WHATWG `new URL`
constructor on the inputs reachable here (absolute `http`/`https` URLs,
guaranteed by the scheme regex in `go`). -/
structure URLObj where
  scheme : String
  userinfo : String
  hostname : String
  port : Option Nat
  pathAndAfter : String
deriving DecidableEq, Repr

/-- The regex `^https?:\/\//i`: the scheme test applied to `to` in `go`. -/
def hasHttpScheme (s : String) : Bool :=
  (s.toList.take 7).map charLower = "http://".toList ||
  (s.toList.take 8).map charLower = "https://".toList

/-- Split off the (lower-cased) scheme and the text after `://`. -/
def schemeSplit (raw : String) : Option (String × List Char) :=
  if (raw.toList.take 7).map charLower = "http://".toList then
    some ("http", raw.toList.drop 7)
  else if (raw.toList.take 8).map charLower = "https://".toList then
    some ("https", raw.toList.drop 8)
  else
    none

/-- Characters ending the authority component of a special-scheme URL
(`/`, `?`, `#`, and `\`, which WHATWG treats as `/` for http/https). -/
def isAuthEnd (c : Char) : Bool :=
  c == '/' || c == '?' || c == '#' || c == '\\'

/-- Code points the WHATWG host parser rejects outright (the subset
reachable after authority splitting). -/
def isForbiddenHostChar (c : Char) : Bool :=
  c.toNat < 33 || c == '#' || c == '/' || c == '<' || c == '>' ||
  c == '?' || c == '@' || c == '[' || c == '\\' || c == ']' ||
  c == '^' || c == '|' || c == '"'

/-- Split the authority at the last `@` into userinfo and host-port. -/
def splitLastAmp (l : List Char) : List Char × List Char :=
  let hostport := (l.reverse.takeWhile (fun c => c ≠ '@')).reverse
  if hostport.length = l.length then ([], l)
  else (l.take (l.length - hostport.length - 1), hostport)

/-- Split host-port at the first `:`. -/
def splitFirstColon (l : List Char) : List Char × Option (List Char) :=
  let h := l.takeWhile (fun c => c ≠ ':')
  if h.length = l.length then (l, none)
  else (h, some (l.drop (h.length + 1)))

def digitsToNat (l : List Char) : Nat :=
  l.foldl (fun a c => a * 10 + (c.toNat - 48)) 0

/-- Validate the port: digits only, at most 65535; empty and scheme-default
ports are dropped. `none` means the URL is rejected. -/
def parsePort (scheme : String) : Option (List Char) → Option (Option Nat)
  | none => some none
  | some [] => some none
  | some ds =>
    if ds.all Char.isDigit then
      let n := digitsToNat ds
      if n > 65535 then none
      else if (scheme = "http" ∧ n = 80) ∨ (scheme = "https" ∧ n = 443) then
        some none
      else some (some n)
    else none

/-- The path-query-fragment remainder; WHATWG serialises an empty path of a
special-scheme URL as `/`. -/
def pathStr (after : List Char) : String :=
  match after with
  | [] => "/"
  | c :: _ =>
    if c = '?' ∨ c = '#' then "/" ++ String.mk after else String.mk after

/-- Function `safeUrl` from the source: `new URL(raw)` returning `null` on parse
failure.  Model of the platform URL parser for the reachable inputs
(scheme already checked by `go`); percent-decoding/IDNA of hostnames and
dot-segment or percent normalisation of paths are not modelled. -/
def safeUrl (raw : String) : Option URLObj :=
  match schemeSplit raw with
  | none => none
  | some (scheme, rest) =>
    let l := rest.dropWhile (fun c => c == '/' || c == '\\')
    let auth := l.takeWhile (fun c => !isAuthEnd c)
    let after := l.dropWhile (fun c => !isAuthEnd c)
    let (userinfo, hostport) := splitLastAmp auth
    let (hostRaw, portRaw) := splitFirstColon hostport
    if hostRaw = [] then none
    else if hostRaw.any isForbiddenHostChar then none
    else
      match parsePort scheme portRaw with
      | none => none
      | some port =>
        some { scheme := scheme,
               userinfo := String.mk userinfo,
               hostname := String.mk (hostRaw.map charLower),
               port := port,
               pathAndAfter := pathStr after }

/-- Method `u.toString()`: the WHATWG serialisation of the parsed URL. -/
def urlToString (u : URLObj) : String :=
  u.scheme ++ "://" ++
  (if u.userinfo = "" then "" else u.userinfo ++ "@") ++
  u.hostname ++
  (match u.port with | none => "" | some p => ":" ++ Nat.repr p) ++
  u.pathAndAfter

/-- ASCII lower-casing of a string (JS `toLowerCase` on the reachable
ASCII hostnames). -/
def lowerStr (s : String) : String :=
  String.mk (s.toList.map charLower)

/-- Function `isAllowedTarget` from the source: `null` is never allowed, otherwise
exact membership of the lower-cased hostname in `ALLOWLIST_HOSTS`. -/
def isAllowedTarget : Option URLObj → Bool
  | none => false
  | some u => ALLOWLIST_HOSTS.contains (lowerStr u.hostname)

-- ---- encodeURIComponent ----

/-- Characters `encodeURIComponent` leaves unescaped:
`A-Z a-z 0-9 - _ . ! ~ * ' ( )`. -/
def isUnescapedURI (c : Char) : Bool :=
  isIdChar c || c == '-' || c == '_' || c == '.' || c == '!' ||
  c == '~' || c == '*' || c.toNat == 39 || c == '(' || c == ')'

/-- UTF-8 bytes of a scalar value. -/
def utf8Bytes (n : Nat) : List Nat :=
  if n < 128 then [n]
  else if n < 2048 then [192 + n / 64, 128 + n % 64]
  else if n < 65536 then
    [224 + n / 4096, 128 + (n / 64) % 64, 128 + n % 64]
  else
    [240 + n / 262144, 128 + (n / 4096) % 64, 128 + (n / 64) % 64,
     128 + n % 64]

/-- Upper-case hex digit. -/
def hexDigitChar (n : Nat) : Char :=
  Char.ofNat (if n < 10 then 48 + n else 55 + n)

/-- Percent-encode one character as its UTF-8 bytes, unless unescaped. -/
def encodeChar (c : Char) : List Char :=
  if isUnescapedURI c then [c]
  else
    (utf8Bytes c.toNat).foldr
      (fun b acc => '%' :: hexDigitChar (b / 16) :: hexDigitChar (b % 16) :: acc)
      []

/-- JavaScript `encodeURIComponent`. -/
def encodeURIComponent (s : String) : String :=
  String.mk ((s.toList.map encodeChar).flatten)

/-- Function `buildAmazonAffiliateUrl({asin, tag})` from the source. -/
def buildAmazonAffiliateUrl (asin tag : String) : String :=
  let t := strOr (jsTrim (strOr tag DEFAULT_AFF_TAG)) DEFAULT_AFF_TAG
  AMAZON_HOST ++ "/dp/" ++ encodeURIComponent asin ++ "?tag=" ++
    encodeURIComponent t

-- ---- Request, response and audit record ----

/-- The inbound request: query parameters and transport metadata, each as
the string the source reads (absent values are the empty string, matching
`(req.query.x || "").toString()`). -/
structure Request where
  «to» : String
  asin : String
  tag : String
  src : String
  created_by : String
  created_at : String
  xForwardedFor : String
  userAgent : String
  ip : String
deriving DecidableEq, Repr

/-- The HTTP response issued by the handler. -/
inductive Response where
  | badRequest : String → Response
  | redirect : Nat → String → Response
deriving DecidableEq, Repr

/-- The click-audit document written to `clicks/<autoId>` (the
server-assigned `ts` timestamp field is supplied by the persistence
collaborator, not by this code, and is omitted). -/
structure DocData where
  targetUrl : String
  asin : Option String
  tag : String
  src : Option String
  created_by : Option String
  created_at : Option String
  ip : Option String
  userAgent : Option String
deriving DecidableEq, Repr

/-- Outcome of one invocation: the response, and the audit record handed to
the fire-and-forget persistence write (`none` when no write is started). -/
structure GoResult where
  response : Response
  logged : Option DocData
deriving DecidableEq, Repr

/-- The first comma-separated component: `s.split(",")[0]`. -/
def firstBeforeComma (s : String) : String :=
  String.mk (s.toList.takeWhile (fun c => c ≠ ','))

/-- The logging block of `go` followed by the redirect: builds the audit
record (when `ENABLE_LOGGING`) and issues the 302. -/
def finishGo (req : Request) (tagParam targetUrl : String) : GoResult :=
  let logged :=
    if ENABLE_LOGGING then
      let ip := strOr (jsTrim (firstBeforeComma req.xForwardedFor))
                  (strOr req.ip "")
      let ua := req.userAgent
      let asinForLog := strOr (extractAsin req.asin)
                          (strOr (extractAsin targetUrl) "")
      some { targetUrl := targetUrl,
             asin := strOrNull asinForLog,
             tag := strOr (strOr tagParam DEFAULT_AFF_TAG) DEFAULT_AFF_TAG,
             src := strOrNull (req.src.take 120),
             created_by := strOrNull (req.created_by.take 200),
             created_at := strOrNull (req.created_at.take 80),
             ip := strOrNull ip,
             userAgent := strOrNull ua }
    else none
  { response := .redirect 302 targetUrl, logged := logged }

/-- The `go` request handler from `functions/index.js`: direct-URL branch
(scheme check, parse, allowlist) when `to` is non-empty after trimming,
identifier branch (`extractAsin` + `buildAmazonAffiliateUrl`) otherwise;
on success the audit record is built and a 302 redirect issued. -/
def go (req : Request) : GoResult :=
  let «to» := jsTrim req.«to»
  let asinParam := jsTrim req.asin
  let tagParam := jsTrim req.tag
  if «to» ≠ "" then
    if ¬ hasHttpScheme «to» then
      { response := .badRequest "Invalid 'to' URL (must start with http/https).",
        logged := none }
    else
      match safeUrl «to» with
      | none =>
        { response := .badRequest "Target host not allowed.", logged := none }
      | some u =>
        if ¬ isAllowedTarget (some u) then
          { response := .badRequest "Target host not allowed.", logged := none }
        else
          finishGo req tagParam (urlToString u)
  else
    let asin := extractAsin asinParam
    if asin = "" then
      { response := .badRequest "Missing target. Provide ?to=<url> or ?asin=<ASIN>.",
        logged := none }
    else
      finishGo req tagParam (buildAmazonAffiliateUrl asin tagParam)

-- ---- Character-level lemmas ----

theorem toNat_ofNat_lt {n : Nat} (h : n < 55296) : (Char.ofNat n).toNat = n := by
  have hv : n.isValidChar := Or.inl h
  unfold Char.ofNat
  rw [dif_pos hv]
  rfl

theorem isIdChar_iff {c : Char} :
    isIdChar c = true ↔
      (48 ≤ c.toNat ∧ c.toNat ≤ 57) ∨ (65 ≤ c.toNat ∧ c.toNat ≤ 90) ∨
        (97 ≤ c.toNat ∧ c.toNat ≤ 122) := by
  simp [isIdChar]
  tauto

theorem isJsSpace_iff {c : Char} :
    isJsSpace c = true ↔
      (9 ≤ c.toNat ∧ c.toNat ≤ 13) ∨ c.toNat = 32 ∨ c.toNat = 160 ∨
        c.toNat = 5760 ∨ (8192 ≤ c.toNat ∧ c.toNat ≤ 8202) ∨ c.toNat = 8232 ∨
        c.toNat = 8233 ∨ c.toNat = 8239 ∨ c.toNat = 8287 ∨ c.toNat = 12288 ∨
        c.toNat = 65279 := by
  simp [isJsSpace]
  tauto

theorem upChar_eq (c : Char) :
    upChar c =
      if 97 ≤ c.toNat ∧ c.toNat ≤ 122 then Char.ofNat (c.toNat - 32) else c :=
  rfl

theorem toNat_upChar (c : Char) :
    (upChar c).toNat =
      if 97 ≤ c.toNat ∧ c.toNat ≤ 122 then c.toNat - 32 else c.toNat := by
  rw [upChar_eq]
  split
  · exact toNat_ofNat_lt (by omega)
  · rfl

theorem isIdChar_upChar {c : Char} (h : isIdChar c = true) :
    isIdChar (upChar c) = true := by
  rw [isIdChar_iff] at h ⊢
  rw [toNat_upChar]
  split <;> omega

theorem upChar_upChar (c : Char) : upChar (upChar c) = upChar c := by
  by_cases h : 97 ≤ c.toNat ∧ c.toNat ≤ 122
  · have hc : ¬ (97 ≤ (Char.ofNat (c.toNat - 32)).toNat ∧
        (Char.ofNat (c.toNat - 32)).toNat ≤ 122) := by
      rw [toNat_ofNat_lt (by omega)]
      omega
    rw [upChar_eq c, if_pos h, upChar_eq, if_neg hc]
  · rw [upChar_eq c, if_neg h, upChar_eq c, if_neg h]

theorem isJsSpace_of_isIdChar {c : Char} (h : isIdChar c = true) :
    isJsSpace c = false := by
  rw [isIdChar_iff] at h
  rw [Bool.eq_false_iff, Ne, isJsSpace_iff]
  omega

theorem ne_slash_of_isIdChar {c : Char} (h : isIdChar c = true) : c ≠ '/' := by
  rw [isIdChar_iff] at h
  intro he
  subst he
  exact absurd h (by decide)

-- ---- dropWhile / trim lemmas ----

theorem head?_dropWhile_false {α} (p : α → Bool) (l : List α) {a : α}
    (h : (l.dropWhile p).head? = some a) : p a = false := by
  have hm := List.head?_dropWhile_not p l
  rw [h] at hm
  exact hm

theorem dropWhile_eq_self_of_head {α} {p : α → Bool} {l : List α}
    (h : ∀ a, l.head? = some a → p a = false) : l.dropWhile p = l := by
  cases l with
  | nil => rfl
  | cons a t =>
    exact List.dropWhile_cons_of_neg (by simp [h a rfl])

theorem dropWhile_dropWhile {α} (p : α → Bool) (l : List α) :
    (l.dropWhile p).dropWhile p = l.dropWhile p :=
  dropWhile_eq_self_of_head (fun _ h => head?_dropWhile_false p l h)

theorem dropWhile_eq_self_of_all {α} {p : α → Bool} {l : List α}
    (h : ∀ a ∈ l, p a = false) : l.dropWhile p = l :=
  dropWhile_eq_self_of_head (fun a ha => h a (by cases l <;> simp_all))

theorem jsTrimList_eq_self_of_all {l : List Char}
    (h : ∀ a ∈ l, isJsSpace a = false) : jsTrimList l = l := by
  unfold jsTrimList
  rw [dropWhile_eq_self_of_all h,
    dropWhile_eq_self_of_all (fun a ha => h a (List.mem_reverse.mp ha)),
    List.reverse_reverse]

theorem jsTrimList_idem (l : List Char) :
    jsTrimList (jsTrimList l) = jsTrimList l := by
  unfold jsTrimList
  have h1 : (((l.dropWhile isJsSpace).reverse.dropWhile
      isJsSpace).reverse).dropWhile isJsSpace =
      ((l.dropWhile isJsSpace).reverse.dropWhile isJsSpace).reverse := by
    apply dropWhile_eq_self_of_head
    intro a ha
    rw [List.head?_reverse] at ha
    obtain ⟨t, ht⟩ := List.dropWhile_suffix
      (l := (l.dropWhile isJsSpace).reverse) (p := isJsSpace)
    have hg : ((l.dropWhile isJsSpace).reverse).getLast? = some a := by
      rw [← ht, List.getLast?_append, ha]
      rfl
    rw [List.getLast?_reverse] at hg
    exact head?_dropWhile_false isJsSpace _ hg
  rw [h1, List.reverse_reverse, dropWhile_dropWhile]

theorem jsTrim_idem (s : String) : jsTrim (jsTrim s) = jsTrim s := by
  show String.mk (jsTrimList (String.mk (jsTrimList s.toList)).toList) = _
  show String.mk (jsTrimList (jsTrimList s.toList)) = _
  rw [jsTrimList_idem]
  rfl

-- ---- Scanner lemmas ----

theorem grab10_some_iff {l id : List Char} :
    grab10 l = some id ↔
      ∃ rest, l = id ++ rest ∧ id.length = 10 ∧ id.all isIdChar = true ∧
        boundaryOk rest = true := by
  constructor
  · intro h
    unfold grab10 at h
    split at h
    · next hc =>
      cases h
      simp only [Bool.and_eq_true, decide_eq_true_eq] at hc
      exact ⟨l.drop 10, (List.take_append_drop 10 l).symm, hc.1.1, hc.1.2, hc.2⟩
    · exact absurd h (by simp)
  · rintro ⟨rest, rfl, h10, hall, hb⟩
    unfold grab10
    rw [List.take_left' h10, List.drop_left' h10]
    simp [h10, hall, hb]

theorem scan1_eq_none_of_no_slash {l : List Char} (h : ∀ c ∈ l, c ≠ '/') :
    scan1 l = none := by
  induction l with
  | nil => rfl
  | cons a t ih =>
    have h1 : match1At (a :: t) = none := by
      simp only [match1At]
      rw [if_neg (h a (List.mem_cons_self a t))]
    simp only [scan1, h1]
    exact ih (fun c hc => h c (List.mem_cons_of_mem _ hc))

theorem scan1_some_shape {l id : List Char} (h : scan1 l = some id) :
    id.length = 10 ∧ id.all isIdChar = true := by
  induction l with
  | nil => exact absurd h (by simp [scan1])
  | cons a t ih =>
    simp only [scan1] at h
    cases hm : match1At (a :: t) with
    | some id2 =>
      rw [hm] at h
      cases h
      simp only [match1At] at hm
      split at hm
      · cases hk : stripKeyword t with
        | none => rw [hk] at hm; exact absurd hm (by simp)
        | some rem =>
          rw [hk] at hm
          have hm2 : grab10 rem = some id := hm
          obtain ⟨rest, _, h10, hall, _⟩ := grab10_some_iff.mp hm2
          exact ⟨h10, hall⟩
      · exact absurd hm (by simp)
    | none =>
      rw [hm] at h
      exact ih h

theorem scan2_some_shape {l id : List Char} (h : scan2 l = some id) :
    ∃ pre rest, l = pre ++ id ++ rest ∧ id.length = 10 ∧
      id.all isIdChar = true ∧ boundaryOk rest = true := by
  induction l with
  | nil => exact absurd h (by simp [scan2])
  | cons a t ih =>
    simp only [scan2] at h
    cases hg : grab10 (a :: t) with
    | some id2 =>
      rw [hg] at h
      cases h
      obtain ⟨rest, heq, h10, hall, hb⟩ := grab10_some_iff.mp hg
      exact ⟨[], rest, by simpa using heq, h10, hall, hb⟩
    | none =>
      rw [hg] at h
      obtain ⟨pre, rest, heq, h10, hall, hb⟩ := ih h
      exact ⟨a :: pre, rest, by simp [heq], h10, hall, hb⟩

theorem scan2_none_no_token {l : List Char} (h : scan2 l = none) :
    ∀ pre id rest, l = pre ++ id ++ rest → id.length = 10 →
      id.all isIdChar = true → boundaryOk rest = true → False := by
  induction l with
  | nil =>
    intro pre id rest heq h10 _ _
    have := congrArg List.length heq
    simp at this
    omega
  | cons a t ih =>
    intro pre id rest heq h10 hall hb
    simp only [scan2] at h
    cases hg : grab10 (a :: t) with
    | some id2 => rw [hg] at h; exact absurd h (by simp)
    | none =>
      rw [hg] at h
      cases pre with
      | nil =>
        simp only [List.nil_append] at heq
        have : grab10 (a :: t) = some id :=
          grab10_some_iff.mpr ⟨rest, heq, h10, hall, hb⟩
        rw [hg] at this
        exact absurd this (by simp)
      | cons b pre' =>
        simp only [List.cons_append, List.cons.injEq] at heq
        exact ih h pre' id rest heq.2 h10 hall hb

theorem scan2_of_grab10 {a : Char} {t id : List Char}
    (h : grab10 (a :: t) = some id) : scan2 (a :: t) = some id := by
  simp only [scan2, h]

-- ---- extractAsin lemmas ----

theorem extractAsin_eq {s : String} (hs : s ≠ "") :
    extractAsin s =
      match scan1 (jsTrim s).toList with
      | some id => String.mk (id.map upChar)
      | none =>
        match scan2 (jsTrim s).toList with
        | some id => String.mk (id.map upChar)
        | none => "" := by
  unfold extractAsin
  rw [if_neg hs]

theorem extractAsin_shape {s : String} (hne : extractAsin s ≠ "") :
    ∃ id : List Char, extractAsin s = String.mk (id.map upChar) ∧
      id.length = 10 ∧ id.all isIdChar = true := by
  have hs : s ≠ "" := by
    intro he
    exact hne (by rw [he]; rfl)
  rw [extractAsin_eq hs] at hne ⊢
  cases h1 : scan1 (jsTrim s).toList with
  | some id =>
    exact ⟨id, by simp only [h1], scan1_some_shape h1⟩
  | none =>
    cases h2 : scan2 (jsTrim s).toList with
    | some id =>
      obtain ⟨pre, rest, _, h10, hall, _⟩ := scan2_some_shape h2
      exact ⟨id, by simp only [h1, h2], h10, hall⟩
    | none =>
      rw [h1, h2] at hne
      exact absurd rfl hne

theorem extractAsin_fixed {id : List Char} (h10 : id.length = 10)
    (hall : id.all isIdChar = true) :
    extractAsin (String.mk (id.map upChar)) = String.mk (id.map upChar) := by
  have hallu : ∀ c ∈ id.map upChar, isIdChar c = true := by
    intro c hc
    obtain ⟨b, hb, rfl⟩ := List.mem_map.mp hc
    exact isIdChar_upChar (List.all_eq_true.mp hall b hb)
  have hne : String.mk (id.map upChar) ≠ "" := by
    intro hcon
    have : (id.map upChar) = [] := by
      simpa using congrArg String.toList hcon
    have := congrArg List.length this
    simp [h10] at this
  have htrim : jsTrim (String.mk (id.map upChar)) = String.mk (id.map upChar) := by
    show String.mk (jsTrimList (id.map upChar)) = _
    rw [jsTrimList_eq_self_of_all
      (fun a ha => isJsSpace_of_isIdChar (hallu a ha))]
  have hs1 : scan1 (String.mk (id.map upChar)).toList = none := by
    show scan1 (id.map upChar) = none
    exact scan1_eq_none_of_no_slash
      (fun c hc => ne_slash_of_isIdChar (hallu c hc))
  have hg : grab10 (id.map upChar) = some (id.map upChar) :=
    grab10_some_iff.mpr ⟨[], by simp, by simp [h10],
      List.all_eq_true.mpr hallu, rfl⟩
  have hs2 : scan2 (String.mk (id.map upChar)).toList = some (id.map upChar) := by
    show scan2 (id.map upChar) = some (id.map upChar)
    cases hu : id.map upChar with
    | nil =>
      have := congrArg List.length hu
      simp [h10] at this
    | cons a t => rw [← hu]; rw [hu] at hg ⊢; exact scan2_of_grab10 hg
  rw [extractAsin_eq hne, htrim]
  simp only [hs1, hs2]
  rw [List.map_map]
  exact congrArg String.mk (List.map_congr_left (fun a _ => upChar_upChar a))

-- ---- Claims about the Identifier Extractor ----

/-- C7: Identifier extraction is idempotent (`extract(extract(s)) = extract(s)`
for every string `s` with non-empty extraction result) and case-normalizing:
`extract("B08N5WRWNW")`, `extract("/dp/b08n5wrwnw/ref=x")`, and
`extract("https://amazon.in/dp/B08N5WRWNW?x=1")` all yield `"B08N5WRWNW"`. -/
theorem extractAsin_idempotent_case_normalizing :
    (∀ s : String, extractAsin s ≠ "" →
      extractAsin (extractAsin s) = extractAsin s) ∧
    extractAsin "B08N5WRWNW" = "B08N5WRWNW" ∧
    extractAsin "/dp/b08n5wrwnw/ref=x" = "B08N5WRWNW" ∧
    extractAsin "https://amazon.in/dp/B08N5WRWNW?x=1" = "B08N5WRWNW" := by
  refine ⟨?_, by decide, by decide, by decide⟩
  intro s h
  obtain ⟨id, hr, h10, hall⟩ := extractAsin_shape h
  rw [hr]
  exact extractAsin_fixed h10 hall

/-- Witness for C7: the idempotence law applied at the concrete input
`"/dp/b08n5wrwnw/ref=x"`. -/
theorem extractAsin_idempotent_witness :
    extractAsin (extractAsin "/dp/b08n5wrwnw/ref=x") =
      extractAsin "/dp/b08n5wrwnw/ref=x" :=
  extractAsin_idempotent_case_normalizing.1 "/dp/b08n5wrwnw/ref=x" (by decide)

/-- C8: when the trimmed input has a path-shaped (first-tier) match, the
extractor returns that tier's uppercased capture, even when the fallback
token tier also has a match; the fallback is consulted only when the path
tier has none. -/
theorem extractAsin_path_tier_wins (s : String) (id tok : List Char)
    (h1 : scan1 (jsTrim s).toList = some id)
    (h2 : scan2 (jsTrim s).toList = some tok) :
    extractAsin s = String.mk (id.map upChar) := by
  have hs : s ≠ "" := by
    intro he
    rw [he] at h1
    rw [(rfl : (jsTrim "").toList = ([] : List Char))] at h1
    simp [scan1] at h1
  rw [extractAsin_eq hs]
  simp only [h1]

/-- Witness for C8: `"ZZZZZZZZZ1/dp/b08n5wrwnw"` contains the fallback
token `ZZZZZZZZZ1` (leftmost) and the path match `b08n5wrwnw`; the path
match wins. -/
theorem extractAsin_path_tier_wins_witness :
    extractAsin "ZZZZZZZZZ1/dp/b08n5wrwnw" = "B08N5WRWNW" := by
  have h := extractAsin_path_tier_wins "ZZZZZZZZZ1/dp/b08n5wrwnw"
    "b08n5wrwnw".toList "ZZZZZZZZZ1".toList (by decide) (by decide)
  exact h.trans (by decide)

/-- Counterexample to C9 as stated: the input `"AAAAAAAAAAB"` is a single
maximal alphanumeric run of length 11 (no path pattern matches and no
standalone 10-character token exists), yet extraction returns
`"AAAAAAAAAB"` — the 10-character suffix — not the empty result, because
the fallback pattern has no left boundary. -/
theorem extractAsin_eleven_run_counterexample :
    extractAsin "AAAAAAAAAAB" = "AAAAAAAAAB" ∧
      extractAsin "AAAAAAAAAAB" ≠ "" := by
  constructor
  · decide
  · decide

/-- C9 (amended): when no path-shaped pattern matches, the fallback tier
matches any 10-character alphanumeric substring followed by `/`, `?`, or
end-of-string — not only standalone tokens; extraction returns the empty
result exactly when no such substring exists in the trimmed input. -/
theorem extractAsin_fallback_characterization (s : String)
    (h1 : scan1 (jsTrim s).toList = none) :
    extractAsin s = "" ↔
      ∀ pre id rest, (jsTrim s).toList = pre ++ id ++ rest →
        ¬(id.length = 10 ∧ id.all isIdChar = true ∧ boundaryOk rest = true) := by
  by_cases hs : s = ""
  · subst hs
    constructor
    · intro _ pre id rest heq hprops
      have hlen := congrArg List.length heq
      have hz : (jsTrim "").toList.length = 0 := rfl
      simp only [List.length_append, hprops.1] at hlen
      omega
    · intro _
      rfl
  · rw [extractAsin_eq hs, h1]
    cases h2 : scan2 (jsTrim s).toList with
    | some id =>
      constructor
      · intro hcon
        exfalso
        obtain ⟨pre, rest, _, h10, _, _⟩ := scan2_some_shape h2
        have : (id.map upChar) = [] := by
          simpa using congrArg String.toList hcon
        have := congrArg List.length this
        simp [h10] at this
      · intro hno
        exfalso
        obtain ⟨pre, rest, heq, h10, hall, hb⟩ := scan2_some_shape h2
        exact hno pre id rest heq ⟨h10, hall, hb⟩
    | none =>
      constructor
      · intro _ pre id rest heq hprops
        exact scan2_none_no_token h2 pre id rest heq hprops.1 hprops.2.1
          hprops.2.2
      · intro _
        rfl

/-- Witness for C9 (amended): at the concrete input `"hi there"` (which has
no 10-character alphanumeric substring), the characterization yields the
empty extraction result. -/
theorem extractAsin_fallback_characterization_witness :
    extractAsin "hi there" = "" := by
  apply (extractAsin_fallback_characterization "hi there" (by decide)).mpr
  intro pre id rest heq hprops
  have hlen := congrArg List.length heq
  rw [(by decide : (jsTrim "hi there").toList.length = 8)] at hlen
  simp [hprops.1] at hlen
  omega

-- ---- Handler-level helper lemmas ----

theorem strOr_of_ne {a b : String} (h : a ≠ "") : strOr a b = a := by
  rw [strOr, if_neg h]

theorem buildAmazonAffiliateUrl_trimmed (asin tag : String)
    (htag : jsTrim tag = tag) :
    buildAmazonAffiliateUrl asin tag =
      AMAZON_HOST ++ "/dp/" ++ encodeURIComponent asin ++ "?tag=" ++
        encodeURIComponent
          (if tag = "" then DEFAULT_AFF_TAG else tag) := by
  unfold buildAmazonAffiliateUrl
  by_cases h : tag = ""
  · subst h
    rw [if_pos rfl,
      (by decide :
        strOr (jsTrim (strOr "" DEFAULT_AFF_TAG)) DEFAULT_AFF_TAG =
          DEFAULT_AFF_TAG)]
  · have e1 : strOr tag DEFAULT_AFF_TAG = tag := strOr_of_ne h
    rw [e1, htag, e1, if_neg h]

theorem strOrNull_strOr (x y : String) :
    strOrNull (strOr x (strOr y "")) =
      if x ≠ "" then some x else if y ≠ "" then some y else none := by
  by_cases hx : x = "" <;> by_cases hy : y = "" <;>
    simp [strOr, strOrNull, hx, hy]

-- ---- Claims about the request handler ----

/-- C2: any `to` value that is non-empty after trimming and does not begin
with `http://` or `https://` (case-insensitively) yields a 400 with the
invalid-URL message, with no redirect and no audit write, whatever the rest
of the string is. -/
theorem go_rejects_invalid_scheme (req : Request)
    (h1 : jsTrim req.«to» ≠ "")
    (h2 : hasHttpScheme (jsTrim req.«to») = false) :
    go req =
      { response := .badRequest "Invalid 'to' URL (must start with http/https).",
        logged := none } := by
  simp [go, h1, h2]

/-- Witness for C2: `to = "www.amazon.in/dp/B08N5WRWNW"` (a valid
allowlisted URL once a scheme is prefixed) is still rejected with the
invalid-URL message. -/
theorem go_rejects_invalid_scheme_witness :
    go { «to» := "www.amazon.in/dp/B08N5WRWNW", asin := "", tag := "",
         src := "", created_by := "", created_at := "", xForwardedFor := "",
         userAgent := "", ip := "" } =
      { response := .badRequest "Invalid 'to' URL (must start with http/https).",
        logged := none } :=
  go_rejects_invalid_scheme _ (by decide) (by decide)

/-- C4: when the trimmed `to` is empty and no identifier can be extracted
from the trimmed `asin`, the response is the 400 missing-target message, no
redirect is issued and no audit record is handed to persistence. -/
theorem go_rejects_missing_target (req : Request)
    (h1 : jsTrim req.«to» = "")
    (h2 : extractAsin (jsTrim req.asin) = "") :
    go req =
      { response := .badRequest "Missing target. Provide ?to=<url> or ?asin=<ASIN>.",
        logged := none } := by
  simp [go, h1, h2]

/-- Witness for C4: the all-empty request is rejected with the
missing-target message and nothing is logged. -/
theorem go_rejects_missing_target_witness :
    go { «to» := "", asin := "", tag := "", src := "", created_by := "",
         created_at := "", xForwardedFor := "", userAgent := "", ip := "" } =
      { response := .badRequest "Missing target. Provide ?to=<url> or ?asin=<ASIN>.",
        logged := none } :=
  go_rejects_missing_target _ (by decide) (by decide)

set_option maxRecDepth 8192 in
/-- C6: for `to = https://www.amazon.in/dp/B08N5WRWNW` and no `asin`, the
response is a 302 redirect to exactly that URL, and the audit record's
identifier field is `"B08N5WRWNW"`, recovered from the resolved destination
because the raw `asin` parameter extracts to nothing. -/
theorem go_direct_url_logs_asin :
    go { «to» := "https://www.amazon.in/dp/B08N5WRWNW", asin := "", tag := "",
         src := "", created_by := "", created_at := "", xForwardedFor := "",
         userAgent := "", ip := "" } =
      { response := .redirect 302 "https://www.amazon.in/dp/B08N5WRWNW",
        logged := some
          { targetUrl := "https://www.amazon.in/dp/B08N5WRWNW",
            asin := some "B08N5WRWNW",
            tag := "shop4me0e-21",
            src := none, created_by := none, created_at := none,
            ip := none, userAgent := none } } := by
  decide

/-- C3: on the identifier branch, the resolved destination is
`https://www.amazon.in/dp/<A>?tag=<T>` where `A` is the extracted
identifier and `T` is the trimmed `tag` parameter when non-empty, else the
default tag `shop4me0e-21`, both percent-encoded. -/
theorem go_identifier_branch_destination (req : Request)
    (hto : jsTrim req.«to» = "") (a : String)
    (ha : extractAsin (jsTrim req.asin) = a) (hne : a ≠ "") :
    (go req).response = .redirect 302
      ("https://www.amazon.in/dp/" ++ encodeURIComponent a ++ "?tag=" ++
        encodeURIComponent
          (if jsTrim req.tag = "" then "shop4me0e-21" else jsTrim req.tag)) := by
  have hb := buildAmazonAffiliateUrl_trimmed a (jsTrim req.tag)
    (jsTrim_idem req.tag)
  simp only [go, hto, ha, finishGo]
  rw [if_neg (by simp), if_neg hne]
  show Response.redirect 302 (buildAmazonAffiliateUrl a (jsTrim req.tag)) = _
  rw [hb,
    (by decide : AMAZON_HOST ++ "/dp/" = "https://www.amazon.in/dp/"),
    (by decide : DEFAULT_AFF_TAG = "shop4me0e-21")]

/-- Witness for C3: `asin=B08N5WRWNW` with no tag resolves to the default
destination, and with `tag=mytag-20` to the tagged destination. -/
theorem go_identifier_branch_destination_witness :
    (go { «to» := "", asin := "B08N5WRWNW", tag := "", src := "",
          created_by := "", created_at := "", xForwardedFor := "",
          userAgent := "", ip := "" }).response =
      .redirect 302 "https://www.amazon.in/dp/B08N5WRWNW?tag=shop4me0e-21" ∧
    (go { «to» := "", asin := "B08N5WRWNW", tag := "mytag-20", src := "",
          created_by := "", created_at := "", xForwardedFor := "",
          userAgent := "", ip := "" }).response =
      .redirect 302 "https://www.amazon.in/dp/B08N5WRWNW?tag=mytag-20" := by
  constructor
  · exact (go_identifier_branch_destination _ (by decide) "B08N5WRWNW"
      (by decide) (by decide)).trans (by decide)
  · exact (go_identifier_branch_destination _ (by decide) "B08N5WRWNW"
      (by decide) (by decide)).trans (by decide)

/-- C5: exactly one resolution branch runs per request — the direct-URL
branch when the trimmed `to` is non-empty (in which case `asin` and `tag`
have no effect on the response), the identifier branch otherwise (in which
case the request behaves as if `to` were absent). -/
theorem go_branch_exclusivity (req : Request) :
    (jsTrim req.«to» ≠ "" → ∀ a t : String,
      (go { req with asin := a, tag := t }).response = (go req).response) ∧
    (jsTrim req.«to» = "" → go req = go { req with «to» := "" }) := by
  constructor
  · intro h a t
    by_cases hsch : hasHttpScheme (jsTrim req.«to»)
    · cases hsafe : safeUrl (jsTrim req.«to») with
      | none => simp [go, h, hsch, hsafe]
      | some u =>
        by_cases hallow : isAllowedTarget (some u) <;>
          simp [go, h, hsch, hsafe, hallow, finishGo]
    · simp [go, h, hsch]
  · intro h
    simp only [go, h, show jsTrim "" = "" from rfl]
    split
    · rfl
    · simp [finishGo]

/-- Witness for C5: with `to` fixed to an allowlisted URL, changing `asin`
and `tag` leaves the response unchanged. -/
theorem go_branch_exclusivity_witness :
    (go { «to» := "https://amzn.to/x", asin := "B000000000", tag := "z",
          src := "", created_by := "", created_at := "", xForwardedFor := "",
          userAgent := "", ip := "" }).response =
    (go { «to» := "https://amzn.to/x", asin := "", tag := "", src := "",
          created_by := "", created_at := "", xForwardedFor := "",
          userAgent := "", ip := "" }).response :=
  (go_branch_exclusivity
    { «to» := "https://amzn.to/x", asin := "", tag := "", src := "",
      created_by := "", created_at := "", xForwardedFor := "",
      userAgent := "", ip := "" }).1 (by decide) "B000000000" "z"

/-- C10: whenever an audit record is built, its client-IP field is the
trimmed first comma-separated component of `x-forwarded-for` when
non-empty, else the transport peer IP when non-empty, else null. -/
theorem go_logged_ip (req : Request) (d : DocData)
    (h : (go req).logged = some d) :
    d.ip = if jsTrim (firstBeforeComma req.xForwardedFor) ≠ ""
      then some (jsTrim (firstBeforeComma req.xForwardedFor))
      else if req.ip ≠ "" then some req.ip else none := by
  have key : ∀ tp tu : String, (finishGo req tp tu).logged = some d →
      d.ip = (if jsTrim (firstBeforeComma req.xForwardedFor) ≠ ""
        then some (jsTrim (firstBeforeComma req.xForwardedFor))
        else if req.ip ≠ "" then some req.ip else none) := by
    intro tp tu hf
    simp only [finishGo, ENABLE_LOGGING, if_true, Option.some.injEq] at hf
    rw [← hf]
    exact strOrNull_strOr _ _
  simp only [go] at h
  split at h
  · split at h
    · simp at h
    · split at h
      · simp at h
      · split at h
        · simp at h
        · exact key _ _ h
  · split at h
    · simp at h
    · exact key _ _ h

set_option maxRecDepth 8192 in
/-- Witness for C10: with `x-forwarded-for: "1.2.3.4, 5.6.7.8"` and peer IP
`9.9.9.9`, the logged IP is `1.2.3.4`. -/
theorem go_logged_ip_witness :
    (go { «to» := "", asin := "B08N5WRWNW", tag := "", src := "",
          created_by := "", created_at := "",
          xForwardedFor := "1.2.3.4, 5.6.7.8", userAgent := "",
          ip := "9.9.9.9" }).logged =
      some { targetUrl := "https://www.amazon.in/dp/B08N5WRWNW?tag=shop4me0e-21",
             asin := some "B08N5WRWNW", tag := "shop4me0e-21", src := none,
             created_by := none, created_at := none, ip := some "1.2.3.4",
             userAgent := none } ∧
    ({ targetUrl := "https://www.amazon.in/dp/B08N5WRWNW?tag=shop4me0e-21",
       asin := some "B08N5WRWNW", tag := "shop4me0e-21", src := none,
       created_by := none, created_at := none, ip := some "1.2.3.4",
       userAgent := none } : DocData).ip = some "1.2.3.4" := by
  constructor
  · decide
  · exact (go_logged_ip
      { «to» := "", asin := "B08N5WRWNW", tag := "", src := "",
        created_by := "", created_at := "",
        xForwardedFor := "1.2.3.4, 5.6.7.8", userAgent := "",
        ip := "9.9.9.9" } _ (by decide)).trans (by decide)

theorem isAllowedTarget_iff (u : URLObj) :
    isAllowedTarget (some u) = true ↔
      (lowerStr u.hostname = "www.amazon.in" ∨
       lowerStr u.hostname = "amazon.in" ∨
       lowerStr u.hostname = "amzn.to" ∨
       lowerStr u.hostname = "m.amazon.in") := by
  simp [isAllowedTarget, ALLOWLIST_HOSTS]

/-- C1: on the direct-URL branch (trimmed `to` non-empty and scheme check
passed), a redirect is issued exactly when the parsed URL's lower-cased
hostname is one of the four configured hosts; any other hostname, and any
unparsable `to`, yields a 400 with body `"Target host not allowed."` and
no redirect. -/
theorem go_allowlist (req : Request)
    (hto : jsTrim req.«to» ≠ "")
    (hscheme : hasHttpScheme (jsTrim req.«to») = true) :
    (∀ u, safeUrl (jsTrim req.«to») = some u →
      ((lowerStr u.hostname = "www.amazon.in" ∨
        lowerStr u.hostname = "amazon.in" ∨
        lowerStr u.hostname = "amzn.to" ∨
        lowerStr u.hostname = "m.amazon.in") ↔
          (go req).response = .redirect 302 (urlToString u)) ∧
      (¬(lowerStr u.hostname = "www.amazon.in" ∨
         lowerStr u.hostname = "amazon.in" ∨
         lowerStr u.hostname = "amzn.to" ∨
         lowerStr u.hostname = "m.amazon.in") →
        (go req).response = .badRequest "Target host not allowed.")) ∧
    (safeUrl (jsTrim req.«to») = none →
      (go req).response = .badRequest "Target host not allowed.") := by
  constructor
  · intro u hu
    by_cases hallow : isAllowedTarget (some u) = true
    · have hresp : (go req).response = .redirect 302 (urlToString u) := by
        simp [go, hto, hscheme, hu, hallow, finishGo]
      exact ⟨⟨fun _ => hresp, fun _ => (isAllowedTarget_iff u).mp hallow⟩,
        fun hnd => absurd ((isAllowedTarget_iff u).mp hallow) hnd⟩
    · have hresp : (go req).response = .badRequest "Target host not allowed." := by
        simp [go, hto, hscheme, hu, hallow]
      refine ⟨⟨fun hm => absurd ((isAllowedTarget_iff u).mpr hm) hallow,
        fun hr => absurd (hresp.symm.trans hr) (by simp)⟩, fun _ => hresp⟩
  · intro hnone
    simp [go, hto, hscheme, hnone]

/-- Witness for C1: `to = "https://evil.com/x"` parses, its hostname is not
on the allowlist, and the response is the 400 host-not-allowed message. -/
theorem go_allowlist_witness :
    (go { «to» := "https://evil.com/x", asin := "", tag := "", src := "",
          created_by := "", created_at := "", xForwardedFor := "",
          userAgent := "", ip := "" }).response =
      .badRequest "Target host not allowed." := by
  have h := go_allowlist
    { «to» := "https://evil.com/x", asin := "", tag := "", src := "",
      created_by := "", created_at := "", xForwardedFor := "",
      userAgent := "", ip := "" } (by decide) (by decide)
  exact (h.1
    { scheme := "https", userinfo := "", hostname := "evil.com",
      port := none, pathAndAfter := "/x" } (by decide)).2 (by decide)

end Shop4Me
